import Mathlib

/-!
Shallow embedding of the `crisp` interpreter (crates/crisp/src/{lang,parse,eval}.rs):
a minimal Lisp with a lexer, recursive-descent parser and an evaluator over
chained environments.  Rust `f32` numbers are modelled as exact rationals `ℚ`
(all programs appearing in the verified properties stay within the range where
`f32` arithmetic is exact); Rust function pointers for native built-ins are
modelled as a closed enumeration; Rust panics (`todo!`, `unwrap` on `None`) are
modelled by a distinguished `fatal` outcome, and possible divergence of the
recursive evaluator by a fuel parameter whose exhaustion yields `timeout`.
-/

namespace Crisp

/-- Rust `f32` values, modelled as exact rationals kept in lowest terms with a
positive denominator.  Every numeric literal and arithmetic result appearing in
the verified properties is small enough that `f32` arithmetic on it is exact,
so the exact-rational model agrees with the source on those values (`NaN`,
infinities and rounding are outside the scope of the claims). -/
structure F32 where
  num : Int
  den : Nat
deriving DecidableEq, Repr

/-- Normalizing constructor: reduce `n / d` to lowest terms (`d` is always
positive at every call site). -/
def F32.norm (n : Int) (d : Nat) : F32 :=
  let g := n.natAbs.gcd d
  if g = 0 then ⟨0, 1⟩ else ⟨n / (g : Int), d / g⟩

def F32.ofInt (n : Int) : F32 := ⟨n, 1⟩

instance (n : Nat) : OfNat F32 n := ⟨⟨(n : Int), 1⟩⟩

instance : Neg F32 := ⟨fun a => ⟨-a.num, a.den⟩⟩

/-- Addition of exact `f32` values. -/
def F32.add (a b : F32) : F32 :=
  F32.norm (a.num * (b.den : Int) + b.num * (a.den : Int)) (a.den * b.den)

/-- Subtraction of exact `f32` values. -/
def F32.sub (a b : F32) : F32 :=
  F32.norm (a.num * (b.den : Int) - b.num * (a.den : Int)) (a.den * b.den)

/-- Multiplication of exact `f32` values. -/
def F32.mul (a b : F32) : F32 :=
  F32.norm (a.num * b.num) (a.den * b.den)

/-- The strict order test `a > b` used by the native `>` (Rust `first > second`). -/
def F32.bgt (a b : F32) : Bool :=
  decide (b.num * (a.den : Int) < a.num * (b.den : Int))

/-- Primitive values (lang.rs `Primitive`): 32-bit floats and booleans. -/
inductive Primitive where
  | number : F32 → Primitive
  | bool : Bool → Primitive
deriving DecidableEq, Repr

/-- The closed set of native built-ins registered in `CrispEnv::default` (eval.rs).
The source stores raw function pointers (`CrispFn(pub fn(&[CrispExpr]) -> ...)`);
spec §9 directs modelling them as a closed enumerated set keyed by identity. -/
inductive CrispFn where
  | add | sub | mul | gt
deriving DecidableEq, Repr

/-- Expressions and values (lang.rs `CrispExpr`): the homoiconic AST/value type. -/
inductive CrispExpr where
  | symbol : String → CrispExpr
  | primitive : Primitive → CrispExpr
  | list : List CrispExpr → CrispExpr
  | fn : CrispFn → CrispExpr
  | lambda : (params : List String) → (body : CrispExpr) → CrispExpr

/-- Errors (lang.rs `CrispError`). -/
inductive CrispError where
  | syntaxError : String → CrispError
  | missingParen : Nat → Nat → CrispError
  | evalError : String → CrispError
deriving DecidableEq, Repr

/-- Environments (eval.rs `CrispEnv`): a `HashMap<String, CrispExpr>` of own
bindings plus `parent: Option<&CrispEnv>`, an optional immutably borrowed
parent.  The option is inlined into two constructors (`root` for a parentless
scope, `child` for a scope with a parent); the `parent` accessor below
recovers the source's `Option` view.  The hash map is modelled as an
association list with insert-replaces-existing-key semantics. -/
inductive CrispEnv where
  | root : (symbols : List (String × CrispExpr)) → CrispEnv
  | child : (symbols : List (String × CrispExpr)) → (parent : CrispEnv) → CrispEnv

/-- Lookup in one scope's own bindings (`HashMap::get`). -/
def mapGet : List (String × CrispExpr) → String → Option CrispExpr
  | [], _ => none
  | (k, v) :: rest, name => if k = name then some v else mapGet rest name

/-- Insertion into one scope's own bindings (`HashMap::insert`): replaces an
existing key's value, otherwise appends the new binding. -/
def mapInsert : List (String × CrispExpr) → String → CrispExpr → List (String × CrispExpr)
  | [], name, v => [(name, v)]
  | (k, w) :: rest, name, v =>
    if k = name then (k, v) :: rest else (k, w) :: mapInsert rest name v

/-- Key-membership in one scope's own bindings (`HashMap::contains_key`). -/
def mapContains (m : List (String × CrispExpr)) (name : String) : Bool :=
  (mapGet m name).isSome

def CrispEnv.symbols : CrispEnv → List (String × CrispExpr)
  | .root s => s
  | .child s _ => s

def CrispEnv.parent : CrispEnv → Option CrispEnv
  | .root _ => none
  | .child _ p => some p

/-- Source `CrispEnv::get`: current scope first, then the parent chain. -/
def CrispEnv.get : CrispEnv → String → Option CrispExpr
  | .root syms, name =>
    match mapGet syms name with
    | some val => some val
    | none => none
  | .child syms outer, name =>
    match mapGet syms name with
    | some val => some val
    | none => outer.get name

/-- Mutation `env.symbols.insert(name, val)`: writes into the current scope only. -/
def CrispEnv.insert : CrispEnv → String → CrispExpr → CrispEnv
  | .root syms, name, v => .root (mapInsert syms name v)
  | .child syms outer, name, v => .child (mapInsert syms name v) outer

/-- Source `CrispEnv::from_parent`: fresh empty scope chained to a parent. -/
def CrispEnv.from_parent (parent : CrispEnv) : CrispEnv :=
  .child [] parent

/-- Value of a digit run read in base 10. -/
def digitsToNat (ds : List Char) : Nat :=
  ds.foldl (fun acc c => 10 * acc + (c.toNat - 48)) 0

/-- Exponent suffix of a float literal: what follows `e`/`E` must be an
optionally signed nonempty digit run consuming the rest of the token. -/
def parseExpSuffix (mant : F32) (cs : List Char) : Option F32 :=
  let (esign, cs1) :=
    match cs with
    | '+' :: rest => ((1 : Int), rest)
    | '-' :: rest => ((-1 : Int), rest)
    | _ => ((1 : Int), cs)
  let ds := cs1.takeWhile Char.isDigit
  let rest := cs1.dropWhile Char.isDigit
  if ds.isEmpty ∨ ¬ rest.isEmpty then none
  else
    let e := digitsToNat ds
    if esign ≥ 0 then some (F32.norm (mant.num * (10 ^ e : Nat)) mant.den)
    else some (F32.norm mant.num (mant.den * 10 ^ e))

/-- Mantissa of a float literal after the sign: `digits`, `digits.digits`,
`digits.`, or `.digits`, optionally followed by an exponent suffix. -/
def parseMantissa (cs : List Char) : Option F32 :=
  let ip := cs.takeWhile Char.isDigit
  let r1 := cs.dropWhile Char.isDigit
  match r1 with
  | [] => if ip.isEmpty then none else some (F32.ofInt (digitsToNat ip))
  | '.' :: r2 =>
    let fp := r2.takeWhile Char.isDigit
    let r3 := r2.dropWhile Char.isDigit
    if ip.isEmpty ∧ fp.isEmpty then none
    else
      let m := F32.norm ((digitsToNat ip * 10 ^ fp.length + digitsToNat fp : Nat) : Int)
        (10 ^ fp.length)
      match r3 with
      | [] => some m
      | c :: r4 => if c = 'e' ∨ c = 'E' then parseExpSuffix m r4 else none
  | c :: r2 =>
    if (c = 'e' ∨ c = 'E') ∧ ¬ ip.isEmpty then parseExpSuffix (F32.ofInt (digitsToNat ip)) r2
    else none

/-- Model of Rust `token.parse::<f32>()` (used by `parse_atom` in parse.rs),
restricted to finite decimal literals: an optional sign, then a decimal
mantissa with optional fractional part and optional exponent.  The value is
kept exact instead of rounded to `f32` precision, and the special spellings
`inf`/`infinity`/`nan` accepted by Rust are omitted; no verified property
depends on those corners, only on which tokens are accepted at all. -/
def parseF32 (s : String) : Option F32 :=
  match s.data with
  | [] => none
  | c :: rest =>
    match c with
    | '+' => parseMantissa rest
    | '-' => (parseMantissa rest).map (fun m => ⟨-m.num, m.den⟩)
    | _ => parseMantissa (c :: rest)

/-- Source `parse_atom` (parse.rs lines 115-122): try the token as an `f32`;
on success a `Number`, otherwise a `Symbol`.  There is no `true`/`false`
check in the source, so no token ever becomes a `Bool` here.  (The shipped
parse.rs is a stale iteration whose own expression type lacks `Primitive`;
its `Number`/`Symbol` results are expressed in the unified `CrispExpr` of
lang.rs, which is what the evaluator consumes.) -/
def parse_atom (token : String) : Except CrispError CrispExpr :=
  match parseF32 token with
  | some f => .ok (.primitive (.number f))
  | none => .ok (.symbol token)

/-- Source `parse_list` (parse.rs), parameterized by the parser used for each
element (the mutual recursion is closed by fuel in `parse`): keep parsing
expressions until a `)` is found, collecting them in order; running out of
tokens first is the "Expected a \x27)\x27" syntax error.  `none` means the
fuel ran out (the model's stand-in for nontermination, which the source's
loop cannot exhibit but the fuel-indexed model must account for). -/
def parse_list_with
    (p : List String → Option (Except CrispError (CrispExpr × List String))) :
    Nat → List String → List CrispExpr →
    Option (Except CrispError (CrispExpr × List String))
  | 0, _, _ => none
  | g + 1, tokens, exps =>
    match tokens with
    | [] => some (.error (.syntaxError "Expected a \x27)\x27"))
    | next :: rest =>
      if next = ")" then some (.ok (.list exps, rest))
      else
        match p tokens with
        | none => none
        | some (.error e) => some (.error e)
        | some (.ok (expr, rest1)) => parse_list_with p g rest1 (exps ++ [expr])

/-- Source `parse` (parse.rs lines 69-77): empty token stream is
`MissingParen(1, 0)`; `(` opens a list; a bare `)` is the "Unexpected \x27)\x27"
syntax error; anything else is an atom.  Fuel bounds the recursion depth of
the model; `none` means it ran out. -/
def parse : Nat → List String → Option (Except CrispError (CrispExpr × List String))
  | 0, _ => none
  | fuel + 1, tokens =>
    match tokens with
    | [] => some (.error (.missingParen 1 0))
    | first :: rest =>
      if first = "(" then parse_list_with (parse fuel) (fuel + 1) rest []
      else if first = ")" then some (.error (.syntaxError "Unexpected \x27)\x27"))
      else
        match parse_atom first with
        | .error e => some (.error e)
        | .ok expr => some (.ok (expr, rest))

/-- Source `parse_float` (parse.rs): a `Number` yields its float, anything
else is the "Expected a number" evaluation error. -/
def parse_float : CrispExpr → Except CrispError F32
  | .primitive (.number x) => .ok x
  | _ => .error (.evalError "Expected a number")

/-- Source `parse_floats` (parse.rs lines 97-106, via `parse_while`): map
`parse_float` over the arguments, stopping at the first error (Rust
`collect::<Result<..>>`). -/
def parse_floats : List CrispExpr → Except CrispError (List F32)
  | [] => .ok []
  | x :: rest =>
    match parse_float x with
    | .error e => .error e
    | .ok f =>
      match parse_floats rest with
      | .error e => .error e
      | .ok fs => .ok (f :: fs)

/-- Modelled from the spec: `parse_param_list` is imported by eval.rs from
parse.rs but absent from the shipped (stale) parse.rs.  Spec §4.4: the `fn`
parameter list must contain only bare symbols, "non-symbol entries fail with
\x22Param list must contain only symbols\x22"; §3 records that duplicate
parameter names are not checked for, so no duplicate check is performed. -/
def parse_param_list : List CrispExpr → Except CrispError (List String)
  | [] => .ok []
  | .symbol n :: rest =>
    match parse_param_list rest with
    | .error e => .error e
    | .ok ns => .ok (n :: ns)
  | _ :: _ => .error (.evalError "Param list must contain only symbols")

/-- The native built-ins registered in `CrispEnv::default` (eval.rs lines
36-94): each parses all arguments as floats first, then `+` folds with
identity 0, `-` requires a first argument and folds subtraction over the
rest, `*` folds with identity 1, and `>` requires two arguments and compares
only the first two. -/
def CrispFn.call : CrispFn → List CrispExpr → Except CrispError CrispExpr
  | .add, args =>
    match parse_floats args with
    | .error e => .error e
    | .ok floats => .ok (.primitive (.number (floats.foldl F32.add 0)))
  | .sub, args =>
    match parse_floats args with
    | .error e => .error e
    | .ok [] => .error (.evalError "- takes at least one argument")
    | .ok (first :: rest) => .ok (.primitive (.number (rest.foldl F32.sub first)))
  | .mul, args =>
    match parse_floats args with
    | .error e => .error e
    | .ok floats => .ok (.primitive (.number (floats.foldl F32.mul 1)))
  | .gt, args =>
    match parse_floats args with
    | .error e => .error e
    | .ok [] => .error (.evalError "> takes at least one argument")
    | .ok [_] => .error (.evalError "Expected a second argument")
    | .ok (first :: second :: _) => .ok (.primitive (.bool (first.bgt second)))

/-- Source `CrispEnv::default`: the root scope, pre-populated with the four
native functions and no parent. -/
def CrispEnv.default : CrispEnv :=
  .root [("+", .fn .add), ("-", .fn .sub), ("*", .fn .mul), (">", .fn .gt)]

/-- Outcome of running a fragment of the interpreter.  `ok`/`err` carry the
state of the current scope afterwards (the Rust code threads `&mut CrispEnv`
through every call, so mutations made before an `Err` return survive in the
caller's environment).  `fatal` models a Rust panic (a `todo!` body or an
`unwrap` of `None`): it aborts the process instead of returning a `Result`.
`timeout` means the model's fuel ran out; the claims only ever quantify over
outcomes the source can actually produce. -/
inductive Res (α : Type) where
  | ok : α → CrispEnv → Res α
  | err : CrispError → CrispEnv → Res α
  | fatal : Res α
  | timeout : Res α

/-- The environment carried by an `ok` or `err` outcome. -/
def Res.envOut {α : Type} : Res α → Option CrispEnv
  | .ok _ env => some env
  | .err _ env => some env
  | .fatal => none
  | .timeout => none

/-- Whether the outcome is a returned (typed) error, i.e. Rust `Err(_)`. -/
def Res.isError {α : Type} : Res α → Bool
  | .err _ _ => true
  | _ => false

/-- Whether the outcome is a returned `SyntaxError`. -/
def Res.isSyntaxError {α : Type} : Res α → Bool
  | .err (.syntaxError _) _ => true
  | _ => false

/-- Caller's view of a lambda-body outcome (eval.rs line 134): the per-call
scope `lambda_env` is dropped when the call returns, so the caller keeps its
own environment `callerEnv` whatever the body did; a panic or divergence of
the body is a panic or divergence of the call. -/
def Res.dropScope : Res CrispExpr → CrispEnv → Res CrispExpr
  | .ok v _, callerEnv => .ok v callerEnv
  | .err e _, callerEnv => .err e callerEnv
  | .fatal, _ => .fatal
  | .timeout, _ => .timeout

/-- Source `CrispExpr::is_symbol` (lang.rs lines 62-69). -/
def CrispExpr.is_symbol : CrispExpr → Bool
  | .symbol _ => true
  | _ => false

/-- Shape of an evaluator closed over its fuel. -/
abbrev Ev := CrispExpr → CrispEnv → Res CrispExpr

/-- Argument evaluation in `eval` (eval.rs lines 114-115):
`rest.iter().map(|arg| eval(arg, env)).collect()` evaluates left to right,
threading the mutable environment, and stops at the first error. -/
def eval_args_with (ev : Ev) : List CrispExpr → CrispEnv → Res (List CrispExpr)
  | [], env => .ok [] env
  | a :: rest, env =>
    match ev a env with
    | .ok v env1 =>
      match eval_args_with ev rest env1 with
      | .ok vs env2 => .ok (v :: vs) env2
      | .err e env2 => .err e env2
      | .fatal => .fatal
      | .timeout => .timeout
    | .err e env1 => .err e env1
    | .fatal => .fatal
    | .timeout => .timeout

/-- Source `eval_begin` (eval.rs lines 167-177): evaluate each argument in
order on the shared environment, returning the last result and stopping at
the first error; with zero arguments the source `unwrap`s a `None` (a panic,
modelled as `fatal`). -/
def eval_begin_with (ev : Ev) : List CrispExpr → CrispEnv → Res CrispExpr
  | [], _ => .fatal
  | [a], env => ev a env
  | a :: b :: rest, env =>
    match ev a env with
    | .ok _ env1 => eval_begin_with ev (b :: rest) env1
    | .err e env1 => .err e env1
    | .fatal => .fatal
    | .timeout => .timeout

/-- Source `eval_if` (eval.rs lines 180-208).  Note the Rust `match` on
`eval(test_form, env)` has a catch-all `_` arm: both a non-boolean test
result AND an error from evaluating the test collapse into the
"Test form must evaluate to a boolean" error. -/
def eval_if_with (ev : Ev) (args : List CrispExpr) (env : CrispEnv) : Res CrispExpr :=
  if args.length > 3 then .err (.evalError "if takes exactly three arguments") env
  else
    match args.head? with
    | none => .err (.evalError "Expected an expression") env
    | some testForm =>
      match ev testForm env with
      | .ok (.primitive (.bool b)) env1 =>
        match (if b then args[1]? else args[2]?) with
        | some expr => ev expr env1
        | none => .err (.evalError "missing true or false clause") env1
      | .ok _ env1 => .err (.evalError "Test form must evaluate to a boolean") env1
      | .err _ env1 => .err (.evalError "Test form must evaluate to a boolean") env1
      | .fatal => .fatal
      | .timeout => .timeout

/-- Source `eval_def` (eval.rs lines 211-242): at most two arguments; the
first must be a symbol not already bound in the current scope's own map;
the second is evaluated on the shared environment (its mutations survive
even if it fails) and, on success only, inserted into the current scope. -/
def eval_def_with (ev : Ev) (args : List CrispExpr) (env : CrispEnv) : Res CrispExpr :=
  if args.length > 2 then .err (.evalError "def takes exactly two arguments") env
  else
    match args.head? with
    | none => .err (.evalError "Expected a name") env
    | some firstForm =>
      match firstForm with
      | .symbol name =>
        if mapContains env.symbols name then
          .err (.evalError ("Variable with name \x27" ++ name ++ "\x27 already exists")) env
        else
          match args[1]? with
          | none => .err (.evalError "Expected a value") env
          | some secondForm =>
            match ev secondForm env with
            | .ok val env1 => .ok firstForm (env1.insert name val)
            | .err e env1 => .err e env1
            | .fatal => .fatal
            | .timeout => .timeout
      | _ => .err (.evalError "First argument must be a symbol") env

/-- Source `eval_lambda` (eval.rs lines 245-267): at most two arguments; the
first must be a list of symbols; the body is fetched with
`args.get(1).unwrap()`, which panics (`fatal`) when only one argument was
given. -/
def eval_lambda (args : List CrispExpr) (env : CrispEnv) : Res CrispExpr :=
  if args.length > 2 then .err (.evalError "fn takes exactly 2 arguments") env
  else
    match args.head? with
    | none => .err (.evalError "Expected a param expression") env
    | some params =>
      match params with
      | .list xs =>
        match parse_param_list xs with
        | .error e => .err e env
        | .ok names =>
          match args[1]? with
          | none => .fatal
          | some body => .ok (.lambda names body) env
      | _ => .err (.evalError "Params should be a list") env

/-- Source `eval_built_in` (eval.rs lines 153-165): dispatch on a literal
leading symbol.  `quote` maps over `args.first()`, so a `quote` with no
arguments yields `None` and falls through to ordinary application. -/
def eval_built_in_with (ev : Ev) (expr : CrispExpr) (args : List CrispExpr)
    (env : CrispEnv) : Option (Res CrispExpr) :=
  match expr with
  | .symbol name =>
    if name = "begin" then some (eval_begin_with ev args env)
    else if name = "def" then some (eval_def_with ev args env)
    else if name = "fn" then some (eval_lambda args env)
    else if name = "if" then some (eval_if_with ev args env)
    else if name = "quote" then (args.head?).map (fun l => Res.ok l env)
    else none
  | _ => none

/-- Parameter binding of a lambda call (eval.rs lines 128-132):
`eval_args.iter().zip(lambda.params.iter())` inserted pairwise into the
fresh call environment. -/
def bindParams : List String → List CrispExpr → CrispEnv → CrispEnv
  | n :: ps, v :: vs, env => bindParams ps vs (env.insert n v)
  | _, _, env => env

/-- Source `eval` (eval.rs lines 103-150), indexed by fuel (the source
recursion is unbounded; spec §5).  A list first tries the special forms; if
none matches, the head is evaluated, then every argument left to right, and
the head's value dispatches: a native call, a lambda call in a fresh scope
parented to the caller's current environment, or the "First form must be a
function" error.  A bare `Fn` or `Lambda` reaches the catch-all arm, whose
error message formats the value with the `Display` implementation of lang.rs
— `todo!()` for those shapes, so it panics (`fatal`) instead of returning. -/
def eval : Nat → CrispExpr → CrispEnv → Res CrispExpr
  | 0, _, _ => .timeout
  | fuel + 1, expr, env =>
    match expr with
    | .list [] => .err (.evalError "Can\x27t eval an empty list.") env
    | .list (first :: rest) =>
      match eval_built_in_with (eval fuel) first rest env with
      | some r => r
      | none =>
        match eval fuel first env with
        | .ok firstForm env1 =>
          match eval_args_with (eval fuel) rest env1 with
          | .ok argVals env2 =>
            match firstForm with
            | .fn f =>
              match f.call argVals with
              | .ok v => .ok v env2
              | .error e => .err e env2
            | .lambda params body =>
              if argVals.length ≠ params.length then
                .err (.evalError "Wrong number of arguments were supplied") env2
              else
                (eval fuel body (bindParams params argVals (CrispEnv.from_parent env2))).dropScope env2
            | _ => .err (.evalError "First form must be a function") env2
          | .err e env2 =>
            match firstForm with
            | .fn _ => .err e env2
            | .lambda _ _ => .err e env2
            | _ => .err (.evalError "First form must be a function") env2
          | .fatal => .fatal
          | .timeout => .timeout
        | .err e env1 => .err e env1
        | .fatal => .fatal
        | .timeout => .timeout
    | .symbol name =>
      match env.get name with
      | some v => .ok v env
      | none => .err (.evalError ("Unknown symbol: " ++ name)) env
    | .primitive _ => .ok expr env
    | .fn _ => .fatal
    | .lambda _ _ => .fatal

/-- The chain of scopes of an environment: its own bindings followed by each
ancestor's bindings, innermost first. -/
def CrispEnv.scopes : CrispEnv → List (List (String × CrispExpr))
  | .root syms => [syms]
  | .child syms outer => syms :: outer.scopes

/-- Independent description of chained lookup: the first scope in the list
that binds the name wins. -/
def firstMatch : List (List (String × CrispExpr)) → String → Option CrispExpr
  | [], _ => none
  | s :: rest, name =>
    match mapGet s name with
    | some v => some v
    | none => firstMatch rest name

theorem mapGet_mapInsert_self (m : List (String × CrispExpr)) (name : String) (v : CrispExpr) :
    mapGet (mapInsert m name v) name = some v := by
  induction m with
  | nil => simp [mapInsert, mapGet]
  | cons kv rest ih =>
    obtain ⟨k, w⟩ := kv
    by_cases hk : k = name
    · simp [mapInsert, hk, mapGet]
    · simp [mapInsert, hk, mapGet, ih]

theorem mapGet_mapInsert_ne (m : List (String × CrispExpr)) (name k : String) (v : CrispExpr)
    (hne : k ≠ name) : mapGet (mapInsert m name v) k = mapGet m k := by
  induction m with
  | nil => simp [mapInsert, mapGet, Ne.symm hne]
  | cons kv rest ih =>
    obtain ⟨k1, w⟩ := kv
    by_cases hk : k1 = name
    · subst hk
      simp [mapInsert, mapGet, Ne.symm hne]
    · simp only [mapInsert, if_neg hk, mapGet, ih]

theorem insert_parent (env : CrispEnv) (name : String) (v : CrispExpr) :
    (env.insert name v).parent = env.parent := by
  cases env <;> simp [CrispEnv.insert, CrispEnv.parent]

theorem insert_symbols (env : CrispEnv) (name : String) (v : CrispExpr) :
    (env.insert name v).symbols = mapInsert env.symbols name v := by
  cases env <;> simp [CrispEnv.insert, CrispEnv.symbols]

theorem get_insert_self (env : CrispEnv) (name : String) (v : CrispExpr) :
    (env.insert name v).get name = some v := by
  cases env <;> simp [CrispEnv.insert, CrispEnv.get, mapGet_mapInsert_self]

theorem get_insert_ne (env : CrispEnv) (name k : String) (v : CrispExpr) (hne : k ≠ name) :
    (env.insert name v).get k = env.get k := by
  cases env <;> simp [CrispEnv.insert, CrispEnv.get, mapGet_mapInsert_ne _ _ _ _ hne]

theorem get_eq_firstMatch : ∀ (env : CrispEnv) (name : String),
    env.get name = firstMatch env.scopes name
  | .root syms, name => by
    simp only [CrispEnv.get, CrispEnv.scopes, firstMatch]
  | .child syms outer, name => by
    simp only [CrispEnv.get, CrispEnv.scopes, firstMatch]
    cases mapGet syms name with
    | some v => rfl
    | none => exact get_eq_firstMatch outer name

theorem firstMatch_none (scopes : List (List (String × CrispExpr))) (name : String)
    (h : firstMatch scopes name = none) : ∀ s ∈ scopes, mapGet s name = none := by
  induction scopes with
  | nil => simp
  | cons s rest ih =>
    intro t ht
    cases hm : mapGet s name with
    | some v => simp [firstMatch, hm] at h
    | none =>
      simp only [firstMatch, hm] at h
      rcases List.mem_cons.mp ht with h1 | h1
      · subst h1; exact hm
      · exact ih h t h1

theorem bindParams_parent : ∀ (ps : List String) (vs : List CrispExpr) (env : CrispEnv),
    (bindParams ps vs env).parent = env.parent
  | [], _, env => rfl
  | _ :: _, [], env => rfl
  | p :: ps, v :: vs, env => by
    simp only [bindParams]
    rw [bindParams_parent ps vs, insert_parent]

theorem bindParams_get_of_not_mem : ∀ (ps : List String) (vs : List CrispExpr) (env : CrispEnv)
    (n : String), n ∉ ps → (bindParams ps vs env).get n = env.get n
  | [], _, env, n, _ => rfl
  | _ :: _, [], env, n, _ => rfl
  | p :: ps, v :: vs, env, n, hmem => by
    simp only [bindParams]
    rw [bindParams_get_of_not_mem ps vs _ n (fun h => hmem (List.mem_cons_of_mem _ h))]
    exact get_insert_ne _ _ _ _ (fun h => hmem (h ▸ List.mem_cons_self _ _))

/-- An outcome keeps the parent when the environment it delivers (if any) has
the same parent as the starting environment: evaluation may mutate only the
current scope's own bindings, never the ancestor chain, because the Rust
parent pointer is an immutable borrow. -/
def keepsParent {α : Type} (env : CrispEnv) : Res α → Prop
  | .ok _ env1 => env1.parent = env.parent
  | .err _ env1 => env1.parent = env.parent
  | .fatal => True
  | .timeout => True

theorem keepsParent_trans {α : Type} {env envA : CrispEnv} {r : Res α}
    (h : keepsParent envA r) (hp : envA.parent = env.parent) : keepsParent env r := by
  cases r with
  | ok v e => exact Eq.trans h hp
  | err e e1 => exact Eq.trans h hp
  | fatal => exact True.intro
  | timeout => exact True.intro

theorem eval_args_with_keepsParent (ev : Ev) (hev : ∀ e env, keepsParent env (ev e env)) :
    ∀ (l : List CrispExpr) (env : CrispEnv), keepsParent env (eval_args_with ev l env) := by
  intro l
  induction l with
  | nil => intro env; exact rfl
  | cons a rest ih =>
    intro env
    cases hv : ev a env with
    | ok v envA =>
      have hA := hev a env
      rw [hv] at hA
      cases hr : eval_args_with ev rest envA with
      | ok vs envB =>
        have hB := ih envA
        rw [hr] at hB
        simp only [eval_args_with, hv, hr]
        exact Eq.trans hB hA
      | err e envB =>
        have hB := ih envA
        rw [hr] at hB
        simp only [eval_args_with, hv, hr]
        exact Eq.trans hB hA
      | fatal => simp only [eval_args_with, hv, hr]; exact True.intro
      | timeout => simp only [eval_args_with, hv, hr]; exact True.intro
    | err e envA =>
      have hA := hev a env
      rw [hv] at hA
      simp only [eval_args_with, hv]
      exact hA
    | fatal => simp only [eval_args_with, hv]; exact True.intro
    | timeout => simp only [eval_args_with, hv]; exact True.intro

theorem eval_begin_with_keepsParent (ev : Ev) (hev : ∀ e env, keepsParent env (ev e env)) :
    ∀ (l : List CrispExpr) (env : CrispEnv), keepsParent env (eval_begin_with ev l env)
  | [], _ => True.intro
  | [a], env => hev a env
  | a :: b :: rest, env => by
    cases hv : ev a env with
    | ok v envA =>
      have hA := hev a env
      rw [hv] at hA
      simp only [eval_begin_with, hv]
      exact keepsParent_trans (eval_begin_with_keepsParent ev hev (b :: rest) envA) hA
    | err e envA =>
      have hA := hev a env
      rw [hv] at hA
      simp only [eval_begin_with, hv]
      exact hA
    | fatal => simp only [eval_begin_with, hv]; exact True.intro
    | timeout => simp only [eval_begin_with, hv]; exact True.intro

theorem eval_if_with_keepsParent (ev : Ev) (hev : ∀ e env, keepsParent env (ev e env))
    (args : List CrispExpr) (env : CrispEnv) : keepsParent env (eval_if_with ev args env) := by
  by_cases hlen : args.length > 3
  · simp only [eval_if_with, if_pos hlen]; exact rfl
  · cases hh : args.head? with
    | none => simp only [eval_if_with, if_neg hlen, hh]; exact rfl
    | some t =>
      cases hv : ev t env with
      | ok v env1 =>
        have hA := hev t env
        rw [hv] at hA
        cases v with
        | primitive p =>
          cases p with
          | bool b =>
            simp only [eval_if_with, if_neg hlen, hh, hv]
            cases hbr : (if b then args[1]? else args[2]?) with
            | some expr => exact keepsParent_trans (hev expr env1) hA
            | none => exact hA
          | number q => simp only [eval_if_with, if_neg hlen, hh, hv]; exact hA
        | symbol s => simp only [eval_if_with, if_neg hlen, hh, hv]; exact hA
        | list l => simp only [eval_if_with, if_neg hlen, hh, hv]; exact hA
        | fn f => simp only [eval_if_with, if_neg hlen, hh, hv]; exact hA
        | lambda ps bd => simp only [eval_if_with, if_neg hlen, hh, hv]; exact hA
      | err e env1 =>
        have hA := hev t env
        rw [hv] at hA
        simp only [eval_if_with, if_neg hlen, hh, hv]
        exact hA
      | fatal => simp only [eval_if_with, if_neg hlen, hh, hv]; exact True.intro
      | timeout => simp only [eval_if_with, if_neg hlen, hh, hv]; exact True.intro

theorem eval_def_with_keepsParent (ev : Ev) (hev : ∀ e env, keepsParent env (ev e env))
    (args : List CrispExpr) (env : CrispEnv) : keepsParent env (eval_def_with ev args env) := by
  by_cases hlen : args.length > 2
  · simp only [eval_def_with, if_pos hlen]; exact rfl
  · cases hh : args.head? with
    | none => simp only [eval_def_with, if_neg hlen, hh]; exact rfl
    | some f =>
      cases f with
      | symbol name =>
        cases hc : mapContains env.symbols name with
        | true => simp [eval_def_with, if_neg hlen, hh, hc]; exact rfl
        | false =>
          cases hg : args[1]? with
          | none => simp [eval_def_with, if_neg hlen, hh, hc, hg]; exact rfl
          | some sf =>
            cases hv : ev sf env with
            | ok val env1 =>
              have hA := hev sf env
              rw [hv] at hA
              simp only [eval_def_with, if_neg hlen, hh, hc, Bool.false_eq_true, if_false, hg, hv]
              show (env1.insert name val).parent = env.parent
              rw [insert_parent]
              exact hA
            | err e env1 =>
              have hA := hev sf env
              rw [hv] at hA
              simp only [eval_def_with, if_neg hlen, hh, hc, Bool.false_eq_true, if_false, hg, hv]
              exact hA
            | fatal =>
              simp only [eval_def_with, if_neg hlen, hh, hc, Bool.false_eq_true, if_false, hg, hv]
              exact True.intro
            | timeout =>
              simp only [eval_def_with, if_neg hlen, hh, hc, Bool.false_eq_true, if_false, hg, hv]
              exact True.intro
      | primitive p => simp only [eval_def_with, if_neg hlen, hh]; exact rfl
      | list l => simp only [eval_def_with, if_neg hlen, hh]; exact rfl
      | fn f2 => simp only [eval_def_with, if_neg hlen, hh]; exact rfl
      | lambda ps bd => simp only [eval_def_with, if_neg hlen, hh]; exact rfl

theorem eval_lambda_keepsParent (args : List CrispExpr) (env : CrispEnv) :
    keepsParent env (eval_lambda args env) := by
  by_cases hlen : args.length > 2
  · simp only [eval_lambda, if_pos hlen]; exact rfl
  · cases hh : args.head? with
    | none => simp only [eval_lambda, if_neg hlen, hh]; exact rfl
    | some params =>
      cases params with
      | list xs =>
        cases hp : parse_param_list xs with
        | error e => simp only [eval_lambda, if_neg hlen, hh, hp]; exact rfl
        | ok names =>
          cases hg : args[1]? with
          | none => simp only [eval_lambda, if_neg hlen, hh, hp, hg]; exact True.intro
          | some body => simp only [eval_lambda, if_neg hlen, hh, hp, hg]; exact rfl
      | symbol s => simp only [eval_lambda, if_neg hlen, hh]; exact rfl
      | primitive p => simp only [eval_lambda, if_neg hlen, hh]; exact rfl
      | fn f => simp only [eval_lambda, if_neg hlen, hh]; exact rfl
      | lambda ps bd => simp only [eval_lambda, if_neg hlen, hh]; exact rfl

theorem eval_built_in_with_keepsParent (ev : Ev) (hev : ∀ e env, keepsParent env (ev e env))
    (expr : CrispExpr) (args : List CrispExpr) (env : CrispEnv) (r : Res CrispExpr)
    (h : eval_built_in_with ev expr args env = some r) : keepsParent env r := by
  cases expr with
  | symbol name =>
    simp only [eval_built_in_with] at h
    by_cases h1 : name = "begin"
    · rw [if_pos h1] at h
      rw [← Option.some.inj h]
      exact eval_begin_with_keepsParent ev hev args env
    · rw [if_neg h1] at h
      by_cases h2 : name = "def"
      · rw [if_pos h2] at h
        rw [← Option.some.inj h]
        exact eval_def_with_keepsParent ev hev args env
      · rw [if_neg h2] at h
        by_cases h3 : name = "fn"
        · rw [if_pos h3] at h
          rw [← Option.some.inj h]
          exact eval_lambda_keepsParent args env
        · rw [if_neg h3] at h
          by_cases h4 : name = "if"
          · rw [if_pos h4] at h
            rw [← Option.some.inj h]
            exact eval_if_with_keepsParent ev hev args env
          · rw [if_neg h4] at h
            by_cases h5 : name = "quote"
            · rw [if_pos h5] at h
              cases hh : args.head? with
              | none => rw [hh] at h; cases h
              | some l =>
                rw [hh] at h
                have h6 : Res.ok l env = r := by simpa using h
                rw [← h6]
                exact rfl
            · rw [if_neg h5] at h
              cases h
  | primitive p => simp only [eval_built_in_with] at h; exact Option.noConfusion h
  | list l => simp only [eval_built_in_with] at h; exact Option.noConfusion h
  | fn f => simp only [eval_built_in_with] at h; exact Option.noConfusion h
  | lambda ps bd => simp only [eval_built_in_with] at h; exact Option.noConfusion h

theorem eval_keepsParent : ∀ (fuel : Nat) (e : CrispExpr) (env : CrispEnv),
    keepsParent env (eval fuel e env)
  | 0, _, _ => True.intro
  | fuel + 1, e, env => by
    have ih : ∀ e env, keepsParent env (eval fuel e env) := eval_keepsParent fuel
    cases e with
    | symbol name =>
      cases hg : env.get name with
      | some v => simp only [eval, hg]; exact rfl
      | none => simp only [eval, hg]; exact rfl
    | primitive p => exact rfl
    | fn f => exact True.intro
    | lambda ps bd => exact True.intro
    | list l =>
      cases l with
      | nil => exact rfl
      | cons first rest =>
        cases hb : eval_built_in_with (eval fuel) first rest env with
        | some r =>
          simp only [eval, hb]
          exact eval_built_in_with_keepsParent (eval fuel) ih first rest env r hb
        | none =>
          cases h1 : eval fuel first env with
          | ok firstForm env1 =>
            have hA := ih first env
            rw [h1] at hA
            cases h2 : eval_args_with (eval fuel) rest env1 with
            | ok argVals env2 =>
              have hB := eval_args_with_keepsParent (eval fuel) ih rest env1
              rw [h2] at hB
              have hAB : env2.parent = env.parent := Eq.trans hB hA
              cases firstForm with
              | fn f =>
                cases hc : f.call argVals with
                | ok v => simp only [eval, hb, h1, h2, hc]; exact hAB
                | error e2 => simp only [eval, hb, h1, h2, hc]; exact hAB
              | lambda params body =>
                by_cases hlen : argVals.length ≠ params.length
                · simp only [eval, hb, h1, h2, if_pos hlen]; exact hAB
                · cases h3 : eval fuel body (bindParams params argVals (CrispEnv.from_parent env2)) with
                  | ok v e3 =>
                    simp only [eval, hb, h1, h2, if_neg hlen, h3, Res.dropScope]
                    exact hAB
                  | err e3 e4 =>
                    simp only [eval, hb, h1, h2, if_neg hlen, h3, Res.dropScope]
                    exact hAB
                  | fatal =>
                    simp only [eval, hb, h1, h2, if_neg hlen, h3, Res.dropScope]
                    exact True.intro
                  | timeout =>
                    simp only [eval, hb, h1, h2, if_neg hlen, h3, Res.dropScope]
                    exact True.intro
              | symbol s => simp only [eval, hb, h1, h2]; exact hAB
              | primitive p => simp only [eval, hb, h1, h2]; exact hAB
              | list l2 => simp only [eval, hb, h1, h2]; exact hAB
            | err e2 env2 =>
              have hB := eval_args_with_keepsParent (eval fuel) ih rest env1
              rw [h2] at hB
              have hAB : env2.parent = env.parent := Eq.trans hB hA
              cases firstForm with
              | fn f => simp only [eval, hb, h1, h2]; exact hAB
              | lambda params body => simp only [eval, hb, h1, h2]; exact hAB
              | symbol s => simp only [eval, hb, h1, h2]; exact hAB
              | primitive p => simp only [eval, hb, h1, h2]; exact hAB
              | list l2 => simp only [eval, hb, h1, h2]; exact hAB
            | fatal => simp only [eval, hb, h1, h2]; exact True.intro
            | timeout => simp only [eval, hb, h1, h2]; exact True.intro
          | err e2 env1 =>
            have hA := ih first env
            rw [h1] at hA
            simp only [eval, hb, h1]
            exact hA
          | fatal => simp only [eval, hb, h1]; exact True.intro
          | timeout => simp only [eval, hb, h1]; exact True.intro

theorem bindParams_get : ∀ (ps : List String) (vs : List CrispExpr) (env : CrispEnv)
    (n : String) (v : CrispExpr), ps.Nodup → (n, v) ∈ ps.zip vs →
    (bindParams ps vs env).get n = some v
  | [], _, _, _, _, _, hmem => by simp at hmem
  | _ :: _, [], _, _, _, _, hmem => by simp at hmem
  | p :: ps, w :: vs, env, n, v, hnd, hmem => by
    simp only [List.zip_cons_cons, List.mem_cons] at hmem
    rcases hmem with h1 | h1
    · injection h1 with hn hv
      subst hn; subst hv
      simp only [bindParams]
      rw [bindParams_get_of_not_mem ps vs _ n (List.nodup_cons.mp hnd).1]
      exact get_insert_self _ _ _
    · simp only [bindParams]
      exact bindParams_get ps vs _ n v (List.nodup_cons.mp hnd).2 h1

/-- Unfolding of `eval` at an `if` form: the special-form check fires before
any evaluation of the head. -/
theorem eval_dispatch_if (fuel : Nat) (args : List CrispExpr) (env : CrispEnv) :
    eval (fuel + 1) (.list (.symbol "if" :: args)) env = eval_if_with (eval fuel) args env := rfl

/-- Unfolding of `eval` at a `def` form. -/
theorem eval_dispatch_def (fuel : Nat) (args : List CrispExpr) (env : CrispEnv) :
    eval (fuel + 1) (.list (.symbol "def" :: args)) env = eval_def_with (eval fuel) args env := rfl

/-- Application path of `eval` when the head is no special form, it evaluates
to a lambda, the arguments all evaluate, and the arity check fails. -/
theorem eval_apply_arity_err (fuel : Nat) (first : CrispExpr) (rest : List CrispExpr)
    (env env1 env2 : CrispEnv) (params : List String) (body : CrispExpr) (vals : List CrispExpr)
    (hb : eval_built_in_with (eval fuel) first rest env = none)
    (h1 : eval fuel first env = .ok (.lambda params body) env1)
    (h2 : eval_args_with (eval fuel) rest env1 = .ok vals env2)
    (hlen : vals.length ≠ params.length) :
    eval (fuel + 1) (.list (first :: rest)) env =
      .err (.evalError "Wrong number of arguments were supplied") env2 := by
  simp only [eval, hb, h1, h2]
  rw [if_pos hlen]

/-- Application path of `eval` when the arity check passes: the body runs in a
fresh scope parented to the caller's current environment and the per-call
scope is dropped on return. -/
theorem eval_apply_lambda (fuel : Nat) (first : CrispExpr) (rest : List CrispExpr)
    (env env1 env2 : CrispEnv) (params : List String) (body : CrispExpr) (vals : List CrispExpr)
    (hb : eval_built_in_with (eval fuel) first rest env = none)
    (h1 : eval fuel first env = .ok (.lambda params body) env1)
    (h2 : eval_args_with (eval fuel) rest env1 = .ok vals env2)
    (hlen : vals.length = params.length) :
    eval (fuel + 1) (.list (first :: rest)) env =
      (eval fuel body (bindParams params vals (CrispEnv.from_parent env2))).dropScope env2 := by
  simp only [eval, hb, h1, h2]
  rw [if_neg (by simp [hlen])]

/-- Propagation in `eval` of an error from evaluating the head of a
non-special-form list. -/
theorem eval_list_head_err (fuel : Nat) (first : CrispExpr) (rest : List CrispExpr)
    (env env1 : CrispEnv) (e : CrispError)
    (hb : eval_built_in_with (eval fuel) first rest env = none)
    (h1 : eval fuel first env = .err e env1) :
    eval (fuel + 1) (.list (first :: rest)) env = .err e env1 := by
  simp only [eval, hb, h1]

/-- List of number expressions with the given values. -/
def numberList : List F32 → List CrispExpr
  | [] => []
  | q :: qs => .primitive (.number q) :: numberList qs

/-- Whether an expression is a `Number` primitive. -/
def isNumber : CrispExpr → Bool
  | .primitive (.number _) => true
  | _ => false

theorem parse_floats_numberList : ∀ qs : List F32, parse_floats (numberList qs) = .ok qs
  | [] => rfl
  | q :: qs => by
    simp only [numberList, parse_floats, parse_float, parse_floats_numberList qs]

theorem parse_floats_err : ∀ (args : List CrispExpr), (∃ a, a ∈ args ∧ isNumber a = false) →
    parse_floats args = .error (.evalError "Expected a number")
  | [], h => absurd h (by simp)
  | x :: rest, h => by
    cases x with
    | primitive p =>
      cases p with
      | number q =>
        have h2 : ∃ a, a ∈ rest ∧ isNumber a = false := by
          rcases h with ⟨a, ha, hf⟩
          rcases List.mem_cons.mp ha with h1 | h1
          · rw [h1] at hf; simp [isNumber] at hf
          · exact ⟨a, h1, hf⟩
        simp only [parse_floats, parse_float, parse_floats_err rest h2]
      | bool b => simp [parse_floats, parse_float]
    | symbol s => simp [parse_floats, parse_float]
    | list l => simp [parse_floats, parse_float]
    | fn f => simp [parse_floats, parse_float]
    | lambda ps bd => simp [parse_floats, parse_float]

/-- C1: the claim says `parse` classifies an atom token as a 32-bit float
(`Number`), else as the literal `true`/`false` (`Bool`), else as a `Symbol`.
The shipped `parse_atom` has no `true`/`false` check: the tokens `true` and
`false` parse to `Symbol`s, never to a `Bool`; numeric classification
(`Number` else `Symbol`) is as described. -/
theorem claim1_parse_atom_no_bool :
    parse 2 ["true"] = some (.ok (.symbol "true", [])) ∧
    parse 2 ["false"] = some (.ok (.symbol "false", [])) ∧
    parse_atom "true" = .ok (.symbol "true") ∧
    parse_atom "false" = .ok (.symbol "false") ∧
    parse 2 ["3.5"] = some (.ok (.primitive (.number ⟨7, 2⟩), [])) :=
  ⟨rfl, rfl, rfl, rfl, rfl⟩

/-- C2 counterexample: evaluating `(if nope 1 2)` in the default environment
does not propagate the test's own error `Unknown symbol: nope`; the `if` form
returns the distinct error `Test form must evaluate to a boolean`. -/
theorem claim2_if_error_replaced_cex :
    eval 2 (.symbol "nope") CrispEnv.default =
      .err (.evalError "Unknown symbol: nope") CrispEnv.default ∧
    eval 3 (.list [.symbol "if", .symbol "nope",
        .primitive (.number 1), .primitive (.number 2)]) CrispEnv.default =
      .err (.evalError "Test form must evaluate to a boolean") CrispEnv.default ∧
    CrispError.evalError "Test form must evaluate to a boolean" ≠
      CrispError.evalError "Unknown symbol: nope" :=
  ⟨rfl, rfl, by decide⟩

/-- C2 amended: when the test expression of an `if` form evaluates to an
error, the `if` form discards that error and returns the evaluation error
"Test form must evaluate to a boolean" (keeping whatever environment
mutations the failed test evaluation performed). -/
theorem claim2_if_error_replaced (fuel : Nat) (args : List CrispExpr) (env env1 : CrispEnv)
    (test : CrispExpr) (e : CrispError)
    (hlen : ¬ args.length > 3) (hhead : args.head? = some test)
    (htest : eval fuel test env = .err e env1) :
    eval (fuel + 1) (.list (.symbol "if" :: args)) env =
      .err (.evalError "Test form must evaluate to a boolean") env1 := by
  rw [eval_dispatch_if]
  simp only [eval_if_with, if_neg hlen, hhead, htest]

theorem claim2_if_error_replaced_witness :
    eval 3 (.list [.symbol "if", .symbol "nope",
        .primitive (.number 1), .primitive (.number 2)]) CrispEnv.default =
      .err (.evalError "Test form must evaluate to a boolean") CrispEnv.default :=
  claim2_if_error_replaced 2 [.symbol "nope", .primitive (.number 1), .primitive (.number 2)]
    CrispEnv.default CrispEnv.default (.symbol "nope") (.evalError "Unknown symbol: nope")
    (by decide) rfl rfl

/-- C3 counterexample: evaluating `(quote)` in the default environment fails
with the evaluation error `Unknown symbol: quote`, not with a syntax error. -/
theorem claim3_quote_no_arg_cex :
    eval 2 (.list [.symbol "quote"]) CrispEnv.default =
      .err (.evalError "Unknown symbol: quote") CrispEnv.default ∧
    (eval 2 (.list [.symbol "quote"]) CrispEnv.default).isSyntaxError = false :=
  ⟨rfl, rfl⟩

/-- C3 amended: a `quote` form with no argument makes the built-in dispatch
yield no result, so the list falls through to ordinary application and fails
while evaluating the head: the evaluation error "Unknown symbol: quote",
whenever `quote` is unbound in the environment chain. -/
theorem claim3_quote_no_arg (fuel : Nat) (env : CrispEnv) (h : env.get "quote" = none) :
    eval (fuel + 2) (.list [.symbol "quote"]) env =
      .err (.evalError "Unknown symbol: quote") env := by
  have hs : eval (fuel + 1) (.symbol "quote") env =
      .err (.evalError "Unknown symbol: quote") env := by
    simp only [eval, h]
    rfl
  exact eval_list_head_err (fuel + 1) (.symbol "quote") [] env env
    (.evalError "Unknown symbol: quote") rfl hs

theorem claim3_quote_no_arg_witness :
    eval 2 (.list [.symbol "quote"]) CrispEnv.default =
      .err (.evalError "Unknown symbol: quote") CrispEnv.default :=
  claim3_quote_no_arg 0 CrispEnv.default rfl

/-- C4 counterexample: a bare native function reaching `eval` does not return
a typed error; the catch-all arm formats the value with the unimplemented
`Display` (`todo!`), a panic that aborts the process (`fatal`). -/
theorem claim4_bare_fn_cex :
    eval 1 (.fn .add) CrispEnv.default = .fatal ∧
    (eval 1 (.fn .add) CrispEnv.default).isError = false ∧
    eval 1 (.lambda ["a"] (.symbol "a")) CrispEnv.default = .fatal :=
  ⟨rfl, rfl, rfl⟩

/-- C4 amended: a bare `NativeFn` or `Lambda` value passed directly to `eval`
reaches the catch-all error arm, whose message formats the expression via the
`Display` implementation; for these two shapes that implementation is
`todo!()`, so the evaluation panics (aborts) instead of returning an error. -/
theorem claim4_bare_fn_fatal (fuel : Nat) (env : CrispEnv) :
    (∀ f : CrispFn, eval (fuel + 1) (.fn f) env = .fatal) ∧
    (∀ (ps : List String) (body : CrispExpr), eval (fuel + 1) (.lambda ps body) env = .fatal) :=
  ⟨fun _ => rfl, fun _ _ => rfl⟩

/-- C5 counterexample: `(def x (begin (def y 1) z))` fails (unknown symbol
`z`) and `x` is not bound, but the environment is NOT unchanged: the nested
`(def y 1)` executed while evaluating the value expression persists. -/
theorem claim5_def_side_effects_cex :
    eval 9 (.list [.symbol "def", .symbol "x",
        .list [.symbol "begin",
          .list [.symbol "def", .symbol "y", .primitive (.number 1)],
          .symbol "z"]]) CrispEnv.default =
      .err (.evalError "Unknown symbol: z")
        (CrispEnv.default.insert "y" (.primitive (.number 1))) ∧
    (CrispEnv.default.insert "y" (.primitive (.number 1))).get "y" =
      some (.primitive (.number 1)) ∧
    CrispEnv.default.get "y" = none :=
  ⟨rfl, rfl, rfl⟩

/-- C5 amended: `def` requires a `Symbol` first argument (else "First
argument must be a symbol", environment untouched); it fails when the name is
a key of the current scope's own bindings, ancestors not consulted
(environment untouched); otherwise it evaluates the value in the current
environment and on success inserts the binding into the current scope and
returns the symbol.  When evaluating the value fails, `def` inserts nothing
and passes the error through verbatim — but the environment keeps any
mutations the partial evaluation of the value performed, so the environment
is not in general unchanged on failure. -/
theorem claim5_def_behavior (fuel : Nat) (args : List CrispExpr) (env : CrispEnv)
    (hlen : ¬ args.length > 2) :
    (∀ f, args.head? = some f → f.is_symbol = false →
      eval (fuel + 1) (.list (.symbol "def" :: args)) env =
        .err (.evalError "First argument must be a symbol") env) ∧
    (∀ n, args.head? = some (.symbol n) → mapContains env.symbols n = true →
      eval (fuel + 1) (.list (.symbol "def" :: args)) env =
        .err (.evalError ("Variable with name \x27" ++ n ++ "\x27 already exists")) env) ∧
    (∀ n sf v env1, args.head? = some (.symbol n) → mapContains env.symbols n = false →
      args[1]? = some sf → eval fuel sf env = .ok v env1 →
      eval (fuel + 1) (.list (.symbol "def" :: args)) env =
        .ok (.symbol n) (env1.insert n v)) ∧
    (∀ n sf e env1, args.head? = some (.symbol n) → mapContains env.symbols n = false →
      args[1]? = some sf → eval fuel sf env = .err e env1 →
      eval (fuel + 1) (.list (.symbol "def" :: args)) env = .err e env1) := by
  refine ⟨?_, ?_, ?_, ?_⟩
  · intro f hh hsym
    rw [eval_dispatch_def]
    cases f with
    | symbol s => simp [CrispExpr.is_symbol] at hsym
    | primitive p => simp only [eval_def_with, if_neg hlen, hh]
    | list l => simp only [eval_def_with, if_neg hlen, hh]
    | fn f2 => simp only [eval_def_with, if_neg hlen, hh]
    | lambda ps bd => simp only [eval_def_with, if_neg hlen, hh]
  · intro n hh hc
    rw [eval_dispatch_def]
    simp only [eval_def_with, if_neg hlen, hh, hc]
    rw [if_pos trivial]
  · intro n sf v env1 hh hc hg hv
    rw [eval_dispatch_def]
    simp only [eval_def_with, if_neg hlen, hh, hc, Bool.false_eq_true, if_false, hg, hv]
  · intro n sf e env1 hh hc hg hv
    rw [eval_dispatch_def]
    simp only [eval_def_with, if_neg hlen, hh, hc, Bool.false_eq_true, if_false, hg, hv]

theorem claim5_def_behavior_witness :
    eval 2 (.list [.symbol "def", .symbol "x", .primitive (.number 5)]) CrispEnv.default =
      .ok (.symbol "x") (CrispEnv.default.insert "x" (.primitive (.number 5))) :=
  (claim5_def_behavior 1 [.symbol "x", .primitive (.number 5)] CrispEnv.default
      (by decide)).2.2.1 "x" (.primitive (.number 5)) (.primitive (.number 5))
    CrispEnv.default rfl rfl rfl rfl

/-- C6: applying a lambda value evaluates the head and all arguments, then
fails with "Wrong number of arguments were supplied" on an arity mismatch;
otherwise the body runs in a fresh environment whose parent is the caller's
current environment and in which each parameter is bound to its argument,
the body's value (or error) being the call's result.  Concretely,
`((fn (a b) (+ a b)) 3 4)` gives `Number 7` and `((fn (a b) (+ a b)) 1)`
gives the arity error. -/
theorem claim6_lambda_application :
    (∀ (fuel : Nat) (first : CrispExpr) (rest : List CrispExpr) (env env1 env2 : CrispEnv)
        (params : List String) (body : CrispExpr) (vals : List CrispExpr),
      eval_built_in_with (eval fuel) first rest env = none →
      eval fuel first env = .ok (.lambda params body) env1 →
      eval_args_with (eval fuel) rest env1 = .ok vals env2 →
      (vals.length ≠ params.length →
        eval (fuel + 1) (.list (first :: rest)) env =
          .err (.evalError "Wrong number of arguments were supplied") env2) ∧
      (vals.length = params.length →
        (bindParams params vals (CrispEnv.from_parent env2)).parent = some env2 ∧
        (params.Nodup → ∀ n v, (n, v) ∈ params.zip vals →
          (bindParams params vals (CrispEnv.from_parent env2)).get n = some v) ∧
        eval (fuel + 1) (.list (first :: rest)) env =
          (eval fuel body (bindParams params vals (CrispEnv.from_parent env2))).dropScope env2)) ∧
    eval 9 (.list [.list [.symbol "fn", .list [.symbol "a", .symbol "b"],
        .list [.symbol "+", .symbol "a", .symbol "b"]],
      .primitive (.number 3), .primitive (.number 4)]) CrispEnv.default =
      .ok (.primitive (.number 7)) CrispEnv.default ∧
    eval 9 (.list [.list [.symbol "fn", .list [.symbol "a", .symbol "b"],
        .list [.symbol "+", .symbol "a", .symbol "b"]],
      .primitive (.number 1)]) CrispEnv.default =
      .err (.evalError "Wrong number of arguments were supplied") CrispEnv.default := by
  refine ⟨?_, rfl, rfl⟩
  intro fuel first rest env env1 env2 params body vals hb h1 h2
  constructor
  · intro hlen
    exact eval_apply_arity_err fuel first rest env env1 env2 params body vals hb h1 h2 hlen
  · intro hlen
    refine ⟨?_, ?_, ?_⟩
    · rw [bindParams_parent]; rfl
    · intro hnd n v hmem
      exact bindParams_get params vals _ n v hnd hmem
    · exact eval_apply_lambda fuel first rest env env1 env2 params body vals hb h1 h2 hlen

theorem claim6_lambda_application_witness :
    eval 3 (.list [.list [.symbol "fn", .list [.symbol "a"], .symbol "a"],
        .primitive (.number 8)]) CrispEnv.default =
      (eval 2 (.symbol "a")
        (bindParams ["a"] [.primitive (.number 8)] (CrispEnv.from_parent CrispEnv.default))).dropScope
        CrispEnv.default :=
  (((claim6_lambda_application.1 2 (.list [.symbol "fn", .list [.symbol "a"], .symbol "a"])
      [.primitive (.number 8)] CrispEnv.default CrispEnv.default CrispEnv.default ["a"]
      (.symbol "a") [.primitive (.number 8)] rfl rfl rfl).2) rfl).2.2

/-- C7: `get` walks the current scope then each ancestor in order and returns
the first match (an inner binding shadows an outer one); `get` is `none`
exactly when no scope in the chain binds the name; `insert` rewrites only the
current scope's own bindings and leaves the parent chain untouched. -/
theorem claim7_env_lookup_insert :
    (∀ (env : CrispEnv) (name : String), env.get name = firstMatch env.scopes name) ∧
    (∀ (env : CrispEnv) (name : String), env.get name = none →
      ∀ s ∈ env.scopes, mapGet s name = none) ∧
    (∀ (env : CrispEnv) (name : String) (v : CrispExpr),
      (env.insert name v).symbols = mapInsert env.symbols name v ∧
      (env.insert name v).parent = env.parent) := by
  refine ⟨get_eq_firstMatch, ?_, ?_⟩
  · intro env name h
    refine firstMatch_none _ _ ?_
    rw [← get_eq_firstMatch]
    exact h
  · intro env name v
    exact ⟨insert_symbols env name v, insert_parent env name v⟩

theorem claim7_env_lookup_insert_witness :
    mapGet CrispEnv.default.symbols "nope" = none :=
  claim7_env_lookup_insert.2.1 CrispEnv.default "nope" rfl CrispEnv.default.symbols
    (by simp [CrispEnv.default, CrispEnv.scopes, CrispEnv.symbols])

/-- C8: no evaluation ever changes the parent chain of the environment it was
handed (ancestor scopes are immutable borrows); a lambda call in particular
hands back to the caller exactly the environment produced by argument
evaluation, whatever the body did in its own per-call scope; concretely,
calling `(fn (a) a)` on `42` under an outer `a = 1` returns `42` and leaves
the outer environment (including `a = 1`) exactly as it was. -/
theorem claim8_lambda_frame :
    (∀ (fuel : Nat) (e : CrispExpr) (env env1 : CrispEnv),
      (eval fuel e env).envOut = some env1 → env1.parent = env.parent) ∧
    (∀ (fuel : Nat) (first : CrispExpr) (rest : List CrispExpr) (env env1 env2 : CrispEnv)
        (params : List String) (body : CrispExpr) (vals : List CrispExpr),
      eval_built_in_with (eval fuel) first rest env = none →
      eval fuel first env = .ok (.lambda params body) env1 →
      eval_args_with (eval fuel) rest env1 = .ok vals env2 →
      vals.length = params.length →
      ∀ envAfter, (eval (fuel + 1) (.list (first :: rest)) env).envOut = some envAfter →
        envAfter = env2) ∧
    eval 9 (.list [.list [.symbol "fn", .list [.symbol "a"], .symbol "a"],
        .primitive (.number 42)])
      (CrispEnv.default.insert "a" (.primitive (.number 1))) =
      .ok (.primitive (.number 42)) (CrispEnv.default.insert "a" (.primitive (.number 1))) ∧
    (CrispEnv.default.insert "a" (.primitive (.number 1))).get "a" =
      some (.primitive (.number 1)) := by
  refine ⟨?_, ?_, rfl, rfl⟩
  · intro fuel e env env1 h
    have hk := eval_keepsParent fuel e env
    cases hr : eval fuel e env with
    | ok v e2 =>
      rw [hr] at h hk
      simp only [Res.envOut, Option.some.injEq] at h
      rw [← h]
      exact hk
    | err er e2 =>
      rw [hr] at h hk
      simp only [Res.envOut, Option.some.injEq] at h
      rw [← h]
      exact hk
    | fatal =>
      rw [hr] at h
      simp only [Res.envOut] at h
      exact Option.noConfusion h
    | timeout =>
      rw [hr] at h
      simp only [Res.envOut] at h
      exact Option.noConfusion h
  · intro fuel first rest env env1 env2 params body vals hb h1 h2 hlen envAfter h
    rw [eval_apply_lambda fuel first rest env env1 env2 params body vals hb h1 h2 hlen] at h
    cases hr : eval fuel body (bindParams params vals (CrispEnv.from_parent env2)) with
    | ok v e3 =>
      rw [hr] at h
      simp only [Res.dropScope, Res.envOut, Option.some.injEq] at h
      exact h.symm
    | err er e3 =>
      rw [hr] at h
      simp only [Res.dropScope, Res.envOut, Option.some.injEq] at h
      exact h.symm
    | fatal =>
      rw [hr] at h
      simp only [Res.dropScope, Res.envOut] at h
      exact Option.noConfusion h
    | timeout =>
      rw [hr] at h
      simp only [Res.dropScope, Res.envOut] at h
      exact Option.noConfusion h

theorem claim8_lambda_frame_witness :
    (CrispEnv.default.insert "x" (.primitive (.number 5))).parent = CrispEnv.default.parent :=
  claim8_lambda_frame.1 2 (.list [.symbol "def", .symbol "x", .primitive (.number 5)])
    CrispEnv.default (CrispEnv.default.insert "x" (.primitive (.number 5))) rfl

/-- C9: evaluating `(quote X)` in any environment succeeds and returns `X`
itself, unevaluated, leaving the environment untouched. -/
theorem claim9_quote_roundtrip (fuel : Nat) (X : CrispExpr) (env : CrispEnv) :
    eval (fuel + 1) (.list [.symbol "quote", X]) env = .ok X env := rfl

/-- C10: `+` and `*` fold any number of numeric arguments with identities 0
and 1; `-` needs at least one numeric argument ("- takes at least one
argument") and folds subtraction left to right; `>` needs two arguments and
compares only the first two, ignoring the values of any further numeric
arguments; any non-number argument yields the "Expected a number" error; and
`(+)`, `(*)`, `(- 10 3 2)`, `(-)` behave as the spec's examples state. -/
theorem claim10_native_arithmetic :
    (∀ qs : List F32, CrispFn.call .add (numberList qs) =
      .ok (.primitive (.number (qs.foldl F32.add 0)))) ∧
    (∀ qs : List F32, CrispFn.call .mul (numberList qs) =
      .ok (.primitive (.number (qs.foldl F32.mul 1)))) ∧
    (∀ (q : F32) (qs : List F32), CrispFn.call .sub (numberList (q :: qs)) =
      .ok (.primitive (.number (qs.foldl F32.sub q)))) ∧
    CrispFn.call .sub [] = .error (.evalError "- takes at least one argument") ∧
    (∀ (a b : F32) (qs : List F32), CrispFn.call .gt (numberList (a :: b :: qs)) =
      .ok (.primitive (.bool (a.bgt b)))) ∧
    CrispFn.call .gt [] = .error (.evalError "> takes at least one argument") ∧
    (∀ a : F32, CrispFn.call .gt (numberList [a]) =
      .error (.evalError "Expected a second argument")) ∧
    (∀ (f : CrispFn) (args : List CrispExpr), (∃ a, a ∈ args ∧ isNumber a = false) →
      CrispFn.call f args = .error (.evalError "Expected a number")) ∧
    eval 3 (.list [.symbol "+"]) CrispEnv.default =
      .ok (.primitive (.number 0)) CrispEnv.default ∧
    eval 3 (.list [.symbol "*"]) CrispEnv.default =
      .ok (.primitive (.number 1)) CrispEnv.default ∧
    eval 3 (.list [.symbol "-", .primitive (.number 10), .primitive (.number 3),
        .primitive (.number 2)]) CrispEnv.default =
      .ok (.primitive (.number 5)) CrispEnv.default ∧
    eval 3 (.list [.symbol "-"]) CrispEnv.default =
      .err (.evalError "- takes at least one argument") CrispEnv.default := by
  refine ⟨?_, ?_, ?_, rfl, ?_, rfl, ?_, ?_, rfl, rfl, rfl, rfl⟩
  · intro qs
    simp only [CrispFn.call, parse_floats_numberList qs]
  · intro qs
    simp only [CrispFn.call, parse_floats_numberList qs]
  · intro q qs
    simp only [CrispFn.call, parse_floats_numberList (q :: qs)]
  · intro a b qs
    simp only [CrispFn.call, parse_floats_numberList (a :: b :: qs)]
  · intro a
    rfl
  · intro f args h
    cases f with
    | add => simp only [CrispFn.call, parse_floats_err args h]
    | sub => simp only [CrispFn.call, parse_floats_err args h]
    | mul => simp only [CrispFn.call, parse_floats_err args h]
    | gt => simp only [CrispFn.call, parse_floats_err args h]

theorem claim10_native_arithmetic_witness :
    CrispFn.call .add [.primitive (.bool true)] = .error (.evalError "Expected a number") :=
  claim10_native_arithmetic.2.2.2.2.2.2.2.1 .add [.primitive (.bool true)]
    ⟨.primitive (.bool true), List.mem_singleton.mpr rfl, rfl⟩

end Crisp
